import Mathlib

/-
Verification development for the game-data-scraper repository.

The repository scrapes an itch.io RSS feed: `src/scrapers/itch_rss_scraper.rs`
drives the crawl and the retrying fetch primitive `fetch_url`;
`src/parsers/itch_game_info_parser.rs` is the detail-page extractor
(`parse_itch_game_page_data`); `src/parsers/itch_parser.rs` is the older
feed-metadata parser whose `parse_date_element` parses abbr-title timestamps.

The HTML/selector layer (the `scraper` crate) is treated as an external
collaborator: a document is embedded as the list of table rows the selector
`div.game_info_panel_widget table tbody tr` yields, a row as its list of `td`
cells, and a cell as the queries the Rust code performs on it (inner_html,
text nodes, the first `div[itemprop=ratingValue]` / `span[itemprop=ratingCount]`
/ `abbr` element with its attribute, and the list of `a` anchors).  Everything
downstream of those queries is translated directly from the Rust source.
-/

/-! ## String primitives (kernel-friendly models of the Rust std functions) -/

/-- Model of Rust `str::split(sep)` for a one-character separator, over the
character list: consecutive separators and edge separators produce empty
pieces, exactly as in Rust. -/
def splitOnChar (sep : Char) : List Char → List (List Char)
  | [] => [[]]
  | c :: rest =>
    let r := splitOnChar sep rest
    if c = sep then [] :: r
    else
      match r with
      | [] => [[c]]
      | g :: gs => (c :: g) :: gs

/-- Whitespace predicate used by the trim model (ASCII fragment of Rust's
Unicode `char::is_whitespace`; the inputs in this development are ASCII). -/
def isWS (c : Char) : Bool := c = ' ' ∨ c = '\t' ∨ c = '\n' ∨ c = '\r'

/-- Characters of a string with leading and trailing whitespace removed. -/
def trimChars (cs : List Char) : List Char :=
  ((cs.dropWhile isWS).reverse.dropWhile isWS).reverse

/-- Model of Rust `str::trim`. -/
def rustTrim (s : String) : String := String.mk (trimChars s.data)

/-- Model of Rust `str::split("\n")` returning strings. -/
def rustSplitNewline (s : String) : List String :=
  (splitOnChar '\n' s.data).map String.mk

/-- Numeric value of a list of decimal digit characters. -/
def digitsVal (cs : List Char) : Nat :=
  cs.foldl (fun a c => a * 10 + (c.toNat - 48)) 0

/-- Model of Rust `f32::from_str` on plain decimal literals (optional sign,
digits, optional dot): the value is kept exactly as a rational.  The
exponent/inf/NaN forms of the Rust grammar and f32 rounding are outside the
scope of the claims checked here; the concrete values evaluated ("4.5") are
exactly representable in f32. -/
def parseF32 (s : String) : Option Rat :=
  let p : Rat × List Char :=
    match s.data with
    | '-' :: r => (-1, r)
    | '+' :: r => (1, r)
    | cs => (1, cs)
  match splitOnChar '.' p.2 with
  | [intp] =>
    if intp ≠ [] ∧ intp.all Char.isDigit then some (p.1 * digitsVal intp) else none
  | [intp, frac] =>
    if (intp ≠ [] ∨ frac ≠ []) ∧ intp.all Char.isDigit ∧ frac.all Char.isDigit then
      some (p.1 * ((digitsVal intp : Rat) + (digitsVal frac : Rat) / ((10 : Rat) ^ frac.length)))
    else none
  | _ => none

/-- Model of Rust `i32::from_str`: optional sign, decimal digits, failure on
empty digit strings, non-digits, and values outside the i32 range. -/
def parseI32 (s : String) : Option Int :=
  let p : Int × List Char :=
    match s.data with
    | '-' :: r => (-1, r)
    | '+' :: r => (1, r)
    | cs => (1, cs)
  if p.2 ≠ [] ∧ p.2.all Char.isDigit then
    let v : Int := p.1 * digitsVal p.2
    if -(2 ^ 31) ≤ v ∧ v ≤ 2 ^ 31 - 1 then some v else none
  else none

/-! ## Date parsing (model of chrono `NaiveDateTime::parse_from_str` with
format `%d %B %Y @ %H:%M UTC`) -/

/-- Result of a successful timestamp parse; `.and_utc()` in the source merely
tags this value with the UTC zone and is modelled as the identity. -/
structure NaiveDateTime where
  day : Nat
  month : Nat
  year : Nat
  hour : Nat
  minute : Nat
deriving DecidableEq, Repr

def isLeapYear (y : Nat) : Bool := (y % 4 = 0 ∧ y % 100 ≠ 0) ∨ y % 400 = 0

def daysInMonth (m : Nat) (y : Nat) : Nat :=
  if m = 2 then (if isLeapYear y then 29 else 28)
  else if m = 4 ∨ m = 6 ∨ m = 9 ∨ m = 11 then 30
  else 31

/-- Full English month names, as matched by `%B`. -/
def monthFromName (s : String) : Option Nat :=
  match s with
  | "January" => some 1
  | "February" => some 2
  | "March" => some 3
  | "April" => some 4
  | "May" => some 5
  | "June" => some 6
  | "July" => some 7
  | "August" => some 8
  | "September" => some 9
  | "October" => some 10
  | "November" => some 11
  | "December" => some 12
  | _ => none

/-- Parse the six space-separated tokens `DD Month YYYY @ HH:MM UTC`. -/
def parseDateTokens (toks : List (List Char)) : Option NaiveDateTime :=
  match toks with
  | [dayT, monT, yearT, atT, timeT, utcT] =>
    if atT = ['@'] ∧ utcT = ['U', 'T', 'C'] ∧
        dayT ≠ [] ∧ dayT.length ≤ 2 ∧ dayT.all Char.isDigit ∧
        yearT.length = 4 ∧ yearT.all Char.isDigit then
      match monthFromName (String.mk monT) with
      | none => none
      | some m =>
        match splitOnChar ':' timeT with
        | [hT, minT] =>
          if hT.length = 2 ∧ hT.all Char.isDigit ∧ minT.length = 2 ∧ minT.all Char.isDigit then
            let d := digitsVal dayT
            let y := digitsVal yearT
            let h := digitsVal hT
            let mi := digitsVal minT
            if 1 ≤ d ∧ d ≤ daysInMonth m y ∧ h < 24 ∧ mi < 60 then
              some ⟨d, m, y, h, mi⟩
            else none
          else none
        | _ => none
    else none
  | _ => none

/-- Model of `NaiveDateTime::parse_from_str(title, "%d %B %Y @ %H:%M UTC")`,
restricted to the canonical single-space form with capitalized full month
names (chrono additionally tolerates whitespace runs, abbreviated and
case-insensitive month names, and wider year fields; those liberal forms do
not occur in the claims checked here). -/
def parseDateTitle (title : String) : Option NaiveDateTime :=
  parseDateTokens (splitOnChar ' ' title.data)

/-! ## HTML abstraction -/

/-- An `a` element inside a data cell: its optional `href` attribute and its
collected text. -/
structure Anchor where
  href : Option String
  text : String
deriving DecidableEq, Repr

/-- A `td` cell, abstracted to exactly the queries the Rust parsers perform on
it.  The doubled `Option`s separate "no such element selected" (outer `none`)
from "element present but attribute absent" (`some none`). -/
structure Cell where
  inner_html : String
  textNodes : List String
  ratingValueContent : Option (Option String)
  ratingCountContent : Option (Option String)
  abbrTitle : Option (Option String)
  anchors : List Anchor
deriving DecidableEq, Repr

/-- A cell that carries only a label (used for label cells in test documents). -/
def labelCell (s : String) : Cell := ⟨s, [], none, none, none, []⟩

/-- Model of `el.text().collect::<String>()`: concatenation of the text nodes. -/
def cellText (c : Cell) : String := String.join c.textNodes

/-- A selected `tr` row is its list of `td` cells. -/
abbrev HtmlRow := List Cell

/-- A document, as seen through the selector
`div.game_info_panel_widget table tbody tr`. -/
abbrev HtmlDoc := List HtmlRow

/-! ## Detail-page extractor: `src/parsers/itch_game_info_parser.rs` -/

namespace ItchGameInfoParser

/-- The 13 field kinds of `ItchTableData` in itch_game_info_parser.rs. -/
inductive ItchTableData where
  | ReleaseDate
  | Status
  | Platforms
  | Rating
  | Authors
  | Genres
  | MadeWith
  | Tags
  | AverageSession
  | Languages
  | Inputs
  | Links
  | Accessibility
deriving DecidableEq, Repr

/-- The error enum `ItchHTMLDataFormatError` (the thiserror display strings
are formatting only and are not modelled). -/
inductive ItchHTMLDataFormatError where
  | UnknownDataType (data : String)
  | MissingElements
  | MissingData (data_type : ItchTableData)
  | InvalidData (data_type : ItchTableData) (found : String)
deriving DecidableEq, Repr

/-- `ItchTableData::from_str`: the closed label table (lines 71-92). -/
def ItchTableData.fromLabel (s : String) : Option ItchTableData :=
  match s with
  | "Status" => some .Status
  | "Release date" => some .ReleaseDate
  | "Accessibility" => some .Accessibility
  | "Platforms" => some .Platforms
  | "Rating" => some .Rating
  | "Author" => some .Authors
  | "Authors" => some .Authors
  | "Genre" => some .Genres
  | "Genres" => some .Genres
  | "Made with" => some .MadeWith
  | "Tag" => some .Tags
  | "Tags" => some .Tags
  | "Average session" => some .AverageSession
  | "Languages" => some .Languages
  | "Language" => some .Languages
  | "Inputs" => some .Inputs
  | "Links" => some .Links
  | _ => none

/-- `ItchRating` (score is `f32` in the source, modelled exactly as `Rat`;
count is `i32`, modelled as `Int` with the range enforced by `parseI32`). -/
structure ItchRating where
  score : Rat := 0
  count : Int := 0
deriving DecidableEq, Repr

structure Link where
  name : String
  url : String
deriving DecidableEq, Repr

/-- `MoreInfoTableData` with Rust's `Default` as field defaults. -/
structure MoreInfoTableData where
  status : String := ""
  release_date : String := ""
  platforms : List String := []
  rating : ItchRating := {}
  authors : List String := []
  genres : List String := []
  made_with : List String := []
  tags : List String := []
  average_session : String := ""
  languages : List String := []
  inputs : List String := []
  links : List Link := []
  accessibility : List String := []
deriving DecidableEq, Repr

/-- `parse_rating_element` (lines 162-210): score from the `content`
attribute of the first `div[itemprop=ratingValue]`, count from the `content`
attribute of the first `span[itemprop=ratingCount]`. -/
def parse_rating_element (el : Cell) (data_type : ItchTableData) :
    Except ItchHTMLDataFormatError ItchRating :=
  match el.ratingValueContent with
  | none => .error (.MissingData data_type)
  | some none => .error (.MissingData data_type)
  | some (some score_str) =>
    match parseF32 score_str with
    | none => .error (.InvalidData data_type score_str)
    | some score =>
      match el.ratingCountContent with
      | none => .error (.MissingData data_type)
      | some none => .error (.MissingData data_type)
      | some (some rating_count) =>
        match parseI32 rating_count with
        | none => .error (.InvalidData data_type rating_count)
        | some count => .ok ⟨score, count⟩

/-- `parse_anchor_separated_strings` (lines 212-218): text nodes, split on
newlines, trimmed, keeping pieces that are nonempty and not ",". -/
def parse_anchor_separated_strings (el : Cell) : List String :=
  (((el.textNodes.map rustSplitNewline).flatten).map rustTrim).filter
    (fun s => s != "," && decide (0 < s.length))

/-- `parse_links` (lines 220-241): every anchor contributes name and href;
an anchor with no href fails with `MissingData Links`. -/
def parse_links : List Anchor → Except ItchHTMLDataFormatError (List Link)
  | [] => .ok []
  | a :: rest =>
    match a.href with
    | some href => (parse_links rest).map (fun ls => ⟨a.text, href⟩ :: ls)
    | none => .error (.MissingData .Links)

/-- The per-row `match data_type` block of `parse_itch_game_page_data`
(lines 116-146): updates the one field selected by the label kind. -/
def rowUpdate (d : MoreInfoTableData) (dt : ItchTableData) (data : Cell) :
    Except ItchHTMLDataFormatError MoreInfoTableData :=
  match dt with
  | .ReleaseDate => .ok { d with release_date := rustTrim (cellText data) }
  | .Status => .ok { d with status := rustTrim (cellText data) }
  | .Accessibility => .ok { d with accessibility := parse_anchor_separated_strings data }
  | .Platforms => .ok { d with platforms := parse_anchor_separated_strings data }
  | .Rating => (parse_rating_element data .Rating).map (fun r => { d with rating := r })
  | .Authors => .ok { d with authors := parse_anchor_separated_strings data }
  | .Genres => .ok { d with genres := parse_anchor_separated_strings data }
  | .MadeWith => .ok { d with made_with := parse_anchor_separated_strings data }
  | .Tags => .ok { d with tags := parse_anchor_separated_strings data }
  | .AverageSession => .ok { d with average_session := rustTrim (cellText data) }
  | .Languages => .ok { d with languages := parse_anchor_separated_strings data }
  | .Inputs => .ok { d with inputs := parse_anchor_separated_strings data }
  | .Links => (parse_links data.anchors).map (fun l => { d with links := l })

/-- The row loop of `parse_itch_game_page_data` (lines 104-147): a row whose
`td` count is not exactly two aborts with `MissingElements`; an unrecognized
label skips the row (`continue`); a recognized row updates its field, errors
propagating. -/
def parseRows : HtmlDoc → MoreInfoTableData → Except ItchHTMLDataFormatError MoreInfoTableData
  | [], acc => .ok acc
  | tr :: rest, acc =>
    match tr with
    | [td0, td1] =>
      match ItchTableData.fromLabel td0.inner_html with
      | none => parseRows rest acc
      | some dt =>
        match rowUpdate acc dt td1 with
        | .ok acc2 => parseRows rest acc2
        | .error e => .error e
    | _ => .error .MissingElements

/-- `parse_itch_game_page_data` (lines 95-150). -/
def parse_itch_game_page_data (doc : HtmlDoc) :
    Except ItchHTMLDataFormatError MoreInfoTableData :=
  parseRows doc {}

end ItchGameInfoParser

/-! ## Feed-metadata parser: `src/parsers/itch_parser.rs` (only the parts the
claims need: its field-kind enum, error enum, and `parse_date_element`) -/

namespace ItchParser

/-- The 13 field kinds of `ItchTableData` in itch_parser.rs (this enum has
`UpdatedDate`/`PublishDate` and no `ReleaseDate`). -/
inductive ItchTableData where
  | UpdatedDate
  | PublishDate
  | Status
  | Platforms
  | Rating
  | Author
  | Genre
  | MadeWith
  | Tags
  | AverageSession
  | Languages
  | Inputs
  | Links
deriving DecidableEq, Repr

/-- The error enum `ItchHTMLDataFormatError` of itch_parser.rs. -/
inductive ItchHTMLDataFormatError where
  | UnknownDataType (data : String)
  | MissingElements
  | MissingData (data_type : ItchTableData)
  | InvalidData (data_type : ItchTableData) (found : String)
deriving DecidableEq, Repr

/-- `ItchTableData::from_str` of itch_parser.rs (lines 131-148): the date
labels "Updated" and "Published" route to the date kinds. -/
def ItchTableData.fromLabel (s : String) : Option ItchTableData :=
  match s with
  | "Updated" => some .UpdatedDate
  | "Published" => some .PublishDate
  | "Status" => some .Status
  | "Platforms" => some .Platforms
  | "Rating" => some .Rating
  | "Author" => some .Author
  | "Genre" => some .Genre
  | "Made with" => some .MadeWith
  | "Tags" => some .Tags
  | "Average session" => some .AverageSession
  | "Languages" => some .Languages
  | "Inputs" => some .Inputs
  | "Links" => some .Links
  | _ => none

/-- `parse_date_element` (lines 161-185): first `abbr` element's `title`
attribute parsed with chrono format `%d %B %Y @ %H:%M UTC`; no `abbr` or no
`title` is `MissingData`, an unparsable title is `InvalidData`. -/
def parse_date_element (el : Cell) (data_type : ItchTableData) :
    Except ItchHTMLDataFormatError NaiveDateTime :=
  match el.abbrTitle with
  | none => .error (.MissingData data_type)
  | some none => .error (.MissingData data_type)
  | some (some title) =>
    match parseDateTitle title with
    | some date => .ok date
    | none => .error (.InvalidData data_type title)

end ItchParser

/-! ## Crawl orchestrator and fetch primitive: `src/scrapers/itch_rss_scraper.rs` -/

namespace ItchRssScraper

open ItchGameInfoParser

/-- The RSS `Item` struct (lines 34-49). -/
structure Item where
  guid : String
  title : String
  plain_title : String
  link : String
  price : String
  description : String
  pub_date : String
  create_date : String
  update_date : String
deriving DecidableEq, Repr

/-- The output `ItchData` struct (lines 9-32). -/
structure ItchData where
  title : String
  plain_title : String
  link : String
  create_date : String
  update_date : String
  release_date : String
  pub_date : String
  price : String
  description : String
  rating : ItchRating
  authors : List String
  genres : List String
  made_with : List String
  tags : List String
  average_session : String
  languages : List String
  inputs : List String
  links : List Link
  status : String
  platforms : List String
  accessibility : List String
deriving DecidableEq, Repr

/-- `combine_itch_rss_and_info_data` (lines 143-167): pure field-by-field
merge of the feed item and the parsed table data. -/
def combine_itch_rss_and_info_data (table_data : MoreInfoTableData) (rss_data : Item) :
    ItchData where
  update_date := rss_data.update_date
  create_date := rss_data.create_date
  plain_title := rss_data.plain_title
  link := rss_data.link
  description := rss_data.description
  pub_date := rss_data.pub_date
  price := rss_data.price
  title := rss_data.title
  average_session := table_data.average_session
  platforms := table_data.platforms
  languages := table_data.languages
  made_with := table_data.made_with
  inputs := table_data.inputs
  authors := table_data.authors
  release_date := table_data.release_date
  rating := table_data.rating
  links := table_data.links
  genres := table_data.genres
  status := table_data.status
  tags := table_data.tags
  accessibility := table_data.accessibility

/-! ### The fetch primitive `fetch_url` (lines 109-141)

The transport (reqwest `Client::get(url).send()`) is an external collaborator:
it is modelled as a function from the attempt index to the outcome of that
attempt.  `res.text()` is modelled as yielding the carried body. -/

/-- One transport attempt: either a response with an HTTP status code and a
body, or a transport-level send error (connection error, timeout). -/
inductive HttpResult where
  | response (status : Nat) (body : String)
  | transportError
deriving DecidableEq, Repr

/-- How `fetch_url` can finish.  `statusError s` is the reqwest error produced
by `res.error_for_status().unwrap_err()` for a client/server error status `s`
(this is also the value returned for 429 after retry exhaustion);
`panicked` marks the `unwrap_err()` panic that occurs when `error_for_status`
is called on a status outside 400..=599, where it returns `Ok`. -/
inductive FetchOutcome where
  | body (s : String)
  | statusError (status : Nat)
  | sendError
  | panicked
deriving DecidableEq, Repr

/-- The retry loop of `fetch_url`.  `remaining = max_retries - retries`;
`attempt` is the 0-based index of the current attempt; `delay` is the current
backoff; `slept` accumulates the seconds slept before each retry, in order.
Returns the outcome, the sleeps performed, and the total number of attempts. -/
def fetchGo (transport : Nat → HttpResult) :
    Nat → Nat → Nat → List Nat → FetchOutcome × List Nat × Nat
  | remaining, attempt, delay, slept =>
    match transport attempt with
    | .response s body =>
      if s = 200 then (.body body, slept, attempt + 1)
      else if s = 429 then
        match remaining with
        | 0 => (.statusError 429, slept, attempt + 1)
        | r + 1 => fetchGo transport r (attempt + 1) (min 300 (delay * 2)) (slept ++ [delay])
      else if 400 ≤ s ∧ s ≤ 599 then (.statusError s, slept, attempt + 1)
      else (.panicked, slept, attempt + 1)
    | .transportError =>
      match remaining with
      | 0 => (.sendError, slept, attempt + 1)
      | r + 1 => fetchGo transport r (attempt + 1) (min 300 (delay * 2)) (slept ++ [delay])

/-- `fetch_url` (lines 109-141): `retries` starts at 0, `delay` starts at 1;
a 429 or a transport error sleeps `delay`, sets `delay = min(300, delay*2)`,
and retries, until `max_retries` retries have been spent. -/
def fetch_url (transport : Nat → HttpResult) (max_retries : Nat) :
    FetchOutcome × List Nat × Nat :=
  fetchGo transport max_retries 0 1 []

/-! ### The crawl loop `scrape_itch_rss_feed` (lines 62-107)

Fetch and feed-decode outcomes are inputs to the model: each page is either a
failed page fetch (fetch_url returned an error after its retries, which the
`?` operator propagates, aborting the whole crawl), or a fetched body whose
`quick_xml` decode failed (page skipped, crawl continues), or a decoded list
of items; each item carries the outcome of fetching its detail link, the body
on success being the abstract document handed to `parse_itch_game_page_data`. -/

/-- Outcome of a `fetch_url` call, as the crawl loop sees it. -/
inductive Fetched (α : Type) where
  | fail
  | ok (val : α)
deriving DecidableEq, Repr

/-- A feed item together with the outcome of fetching its detail page. -/
abbrev ItemInput := Item × Fetched HtmlDoc

/-- A page: the page-fetch outcome; on success, `none` models a quick_xml
decode error and `some items` a decoded feed. -/
abbrev PageInput := Fetched (Option (List ItemInput))

/-- The inner item loop (lines 85-95): a detail-fetch failure propagates (the
`?` aborts the crawl); a parse failure is logged and the item skipped; a
parsed item is combined and pushed. -/
def processItems : List ItemInput → List ItchData → Option (List ItchData)
  | [], acc => some acc
  | (_, .fail) :: _, _ => none
  | (item, .ok doc) :: rest, acc =>
    match parse_itch_game_page_data doc with
    | .ok data => processItems rest (acc ++ [combine_itch_rss_and_info_data data item])
    | .error _ => processItems rest acc

/-- The page loop (lines 79-103): a page-fetch failure propagates; a decode
failure is logged and the page skipped; a decoded page runs the item loop on
the shared accumulator. -/
def crawlPages : List PageInput → List ItchData → Option (List ItchData)
  | [], acc => some acc
  | .fail :: _, _ => none
  | .ok none :: rest, acc => crawlPages rest acc
  | .ok (some items) :: rest, acc =>
    match processItems items acc with
    | some acc2 => crawlPages rest acc2
    | none => none

/-- `scrape_itch_rss_feed` (lines 62-107), with the progress bar (display
only) omitted: the crawl either aborts on a fetch failure or returns the
accumulated records. -/
def scrape_itch_rss_feed (pages : List PageInput) : Option (List ItchData) :=
  crawlPages pages []

end ItchRssScraper

/-! ## Spec-side predicates and concrete fixtures -/

namespace ItchGameInfoParser

/-- Frame predicate for C5: every field other than the one selected by `dt`
is unchanged from `d` to `r`. -/
def unchangedExcept (dt : ItchTableData) (d r : MoreInfoTableData) : Prop :=
  (dt ≠ .Status → r.status = d.status) ∧
  (dt ≠ .ReleaseDate → r.release_date = d.release_date) ∧
  (dt ≠ .Platforms → r.platforms = d.platforms) ∧
  (dt ≠ .Rating → r.rating = d.rating) ∧
  (dt ≠ .Authors → r.authors = d.authors) ∧
  (dt ≠ .Genres → r.genres = d.genres) ∧
  (dt ≠ .MadeWith → r.made_with = d.made_with) ∧
  (dt ≠ .Tags → r.tags = d.tags) ∧
  (dt ≠ .AverageSession → r.average_session = d.average_session) ∧
  (dt ≠ .Languages → r.languages = d.languages) ∧
  (dt ≠ .Inputs → r.inputs = d.inputs) ∧
  (dt ≠ .Links → r.links = d.links) ∧
  (dt ≠ .Accessibility → r.accessibility = d.accessibility)

/-- The field selected by `dt` holds exactly the value the per-kind rule
extracts from the data cell. -/
def assignedField (dt : ItchTableData) (data : Cell) (r : MoreInfoTableData) : Prop :=
  match dt with
  | .ReleaseDate => r.release_date = rustTrim (cellText data)
  | .Status => r.status = rustTrim (cellText data)
  | .Accessibility => r.accessibility = parse_anchor_separated_strings data
  | .Platforms => r.platforms = parse_anchor_separated_strings data
  | .Rating => parse_rating_element data .Rating = .ok r.rating
  | .Authors => r.authors = parse_anchor_separated_strings data
  | .Genres => r.genres = parse_anchor_separated_strings data
  | .MadeWith => r.made_with = parse_anchor_separated_strings data
  | .Tags => r.tags = parse_anchor_separated_strings data
  | .AverageSession => r.average_session = rustTrim (cellText data)
  | .Languages => r.languages = parse_anchor_separated_strings data
  | .Inputs => r.inputs = parse_anchor_separated_strings data
  | .Links => parse_links data.anchors = .ok r.links

/-- The list-field rule written from the spec's words, for comparison with
`parse_anchor_separated_strings`: split the cell's text nodes on newlines,
trim each piece, drop empty strings and standalone comma tokens, preserving
relative order with no deduplication. -/
def specListField (textNodes : List String) : List String :=
  ((textNodes.flatMap rustSplitNewline).map rustTrim).filter
    (fun s => decide (¬(s = "" ∨ s = ",")))

end ItchGameInfoParser

/-- A data cell carrying only text nodes. -/
def textCell (ts : List String) : Cell := ⟨"", ts, none, none, none, []⟩

/-- A Rating data cell carrying the two content attributes. -/
def ratingCell (score count : Option (Option String)) : Cell :=
  ⟨"", [], score, count, none, []⟩

/-- A data cell carrying only anchors. -/
def anchorsCell (as : List Anchor) : Cell := ⟨"", [], none, none, none, as⟩

/-- A data cell whose first `abbr` element carries the given `title`. -/
def abbrCell (t : Option (Option String)) : Cell := ⟨"", [], none, none, t, []⟩

/-- C3 counterexample document: a recognized "Release date" row whose data
cell has no `abbr` element, only the text "soon". -/
def c3doc : HtmlDoc := [[labelCell "Release date", textCell ["soon"]]]

/-- C6 counterexample document: a Rating row lacking the ratingValue element,
followed by a row with three `td` cells. -/
def c6doc : HtmlDoc :=
  [[labelCell "Rating", ratingCell none none],
   [labelCell "a", labelCell "b", labelCell "c"]]

/-- C10 counterexample document: a row with three `td` cells, followed by a
recognized Links row one of whose anchors has no `href`. -/
def c10doc : HtmlDoc :=
  [[labelCell "a", labelCell "b", labelCell "c"],
   [labelCell "Links", anchorsCell [⟨none, "home"⟩]]]

namespace ItchRssScraper

/-- A feed item fixture for witnesses. -/
def itemW : Item := ⟨"g1", "T", "T", "https://x.itch.io/a", "$0", "d", "p", "c", "u"⟩

/-- A detail document whose parse succeeds, setting only the status field. -/
def docGoodW : HtmlDoc := [[labelCell "Status", textCell ["Released"]]]

/-- A detail document whose parse fails (Rating row with no ratingValue). -/
def docBadW : HtmlDoc := [[labelCell "Rating", ratingCell none none]]

/-- Crawl fixture: one decoded page with one parsable and one unparsable
item, then one page whose feed decode fails. -/
def pagesW : List PageInput :=
  [.ok (some [(itemW, .ok docGoodW), (itemW, .ok docBadW)]), .ok none]

/-- The one record the fixture crawl emits. -/
def recW : ItchData :=
  combine_itch_rss_and_info_data { status := "Released" } itemW

end ItchRssScraper

/-! ## Helper lemmas -/

namespace ItchRssScraper

lemma min300_double (x : Nat) : min 300 (min 300 x * 2) = min 300 (x * 2) := by
  omega

/-- One-step unfolding of the retry loop, usable when the remaining retry
budget is a variable. -/
lemma fetchGo_step (transport : Nat → HttpResult) (remaining attempt delay : Nat)
    (slept : List Nat) :
    fetchGo transport remaining attempt delay slept =
      match transport attempt with
      | .response s body =>
        if s = 200 then (.body body, slept, attempt + 1)
        else if s = 429 then
          match remaining with
          | 0 => (.statusError 429, slept, attempt + 1)
          | r + 1 => fetchGo transport r (attempt + 1) (min 300 (delay * 2)) (slept ++ [delay])
        else if 400 ≤ s ∧ s ≤ 599 then (.statusError s, slept, attempt + 1)
        else (.panicked, slept, attempt + 1)
      | .transportError =>
        match remaining with
        | 0 => (.sendError, slept, attempt + 1)
        | r + 1 => fetchGo transport r (attempt + 1) (min 300 (delay * 2)) (slept ++ [delay]) := by
  cases remaining <;> cases h : transport attempt <;> simp [fetchGo, h]

/-- A constant non-429 response is decided on the first attempt: 200 yields
the body, a 4xx/5xx yields its status error, anything else panics. -/
lemma fetch_url_const_response (s : Nat) (body : String) (R : Nat) (h429 : s ≠ 429) :
    fetch_url (fun _ => .response s body) R =
      if s = 200 then (.body body, [], 1)
      else if 400 ≤ s ∧ s ≤ 599 then (.statusError s, [], 1)
      else (.panicked, [], 1) := by
  rw [fetch_url, fetchGo_step]
  simp [h429]

/-- Behaviour of the retry loop under a transport that answers 429 on every
attempt: going in with backoff `min 300 (2 ^ j)` it sleeps that backoff before
each retry, doubling it (capped at 300) each round, and exits with the 429
status error after spending the whole retry budget. -/
lemma fetchGo_const429 (transport : Nat → HttpResult)
    (h : ∀ n, ∃ b, transport n = .response 429 b) :
    ∀ r a j slept, fetchGo transport r a (min 300 (2 ^ j)) slept =
      (.statusError 429, slept ++ (List.range r).map (fun i => min 300 (2 ^ (j + i))), a + r + 1) := by
  intro r
  induction r with
  | zero =>
    intro a j slept
    obtain ⟨b, hb⟩ := h a
    simp [fetchGo, hb]
  | succ r ih =>
    intro a j slept
    obtain ⟨b, hb⟩ := h a
    rw [fetchGo, hb]
    norm_num
    rw [min300_double, show (2 ^ j * 2 : Nat) = 2 ^ (j + 1) from by ring,
      ih (a + 1) (j + 1) (slept ++ [min 300 (2 ^ j)])]
    simp only [Prod.mk.injEq, List.append_assoc, List.singleton_append,
      List.range_succ_eq_map, List.map_cons, List.map_map, Nat.add_zero]
    refine ⟨trivial, ?_, by omega⟩
    refine congrArg _ (congrArg _ ?_)
    refine List.map_congr_left ?_
    intro i _
    simp only [Function.comp, Nat.succ_eq_add_one]
    have hji : j + 1 + i = j + (i + 1) := by omega
    rw [hji]

end ItchRssScraper

/-! ## Claim theorems -/

/-- C1: with maxRetries = R and a transport that answers HTTP 429 (rate
limited) on every attempt, `fetch_url` returns the last rate-limit error
after exactly R retries, i.e. R+1 total attempts, and the delay slept before
retry k (k ≥ 1) is `min 300 (2 ^ (k - 1))` seconds. -/
theorem fetch_url_exhausts_retries_on_constant_429
    (R : Nat) (transport : Nat → ItchRssScraper.HttpResult)
    (h : ∀ n, ∃ b, transport n = .response 429 b) :
    ItchRssScraper.fetch_url transport R =
      (.statusError 429, (List.range R).map (fun k => min 300 (2 ^ k)), R + 1) := by
  have hx := ItchRssScraper.fetchGo_const429 transport h R 0 0 []
  norm_num at hx
  simpa [ItchRssScraper.fetch_url] using hx

/-- C1 witness: with 3 retries against an always-429 transport the fetch
fails with the 429 error after 4 attempts, sleeping 1, 2, 4 seconds. -/
theorem fetch_url_exhausts_retries_on_constant_429_witness :
    ItchRssScraper.fetch_url (fun _ => .response 429 "") 3 =
      (.statusError 429, [1, 2, 4], 4) := by
  have hx := fetch_url_exhausts_retries_on_constant_429 3 (fun _ => .response 429 "")
    (fun _ => ⟨"", rfl⟩)
  rw [hx]
  rfl

/-- C9: a transport response with a success status other than 200 OK (for
example 204 No Content) makes `fetch_url` panic — `error_for_status` returns
`Ok` for non-4xx/5xx statuses and the code unwraps its error side — instead
of returning the body or an error; only status 200 yields the body. -/
theorem fetch_url_panics_on_non200_success
    (R s : Nat) (body : String) (h2 : 200 ≤ s) (h3 : s ≤ 299) (hne : s ≠ 200) :
    ItchRssScraper.fetch_url (fun _ => .response s body) R =
      (.panicked, [], 1) ∧
    ∀ s2, ((ItchRssScraper.fetch_url (fun _ => .response s2 body) R).1 =
      ItchRssScraper.FetchOutcome.body body ↔ s2 = 200) := by
  constructor
  · have h429 : s ≠ 429 := by omega
    have h400 : ¬(400 ≤ s ∧ s ≤ 599) := by omega
    rw [ItchRssScraper.fetch_url_const_response s body R h429]
    simp [hne, h400]
  · intro s2
    constructor
    · intro hb
      by_contra hne2
      by_cases h429 : s2 = 429
      · subst h429
        have hx := ItchRssScraper.fetchGo_const429 (fun _ => .response 429 body)
          (fun _ => ⟨body, rfl⟩) R 0 0 []
        norm_num at hx
        rw [ItchRssScraper.fetch_url, hx] at hb
        simp at hb
      · rw [ItchRssScraper.fetch_url_const_response s2 body R h429] at hb
        by_cases h400 : 400 ≤ s2 ∧ s2 ≤ 599 <;> simp [hne2, h400] at hb
    · intro h200
      subst h200
      rw [ItchRssScraper.fetch_url_const_response 200 body R (by norm_num)]
      simp

/-- C9 witness: status 204 makes the fetch panic on the first attempt. -/
theorem fetch_url_panics_on_non200_success_witness :
    ItchRssScraper.fetch_url (fun _ => .response 204 "x") 5 = (.panicked, [], 1) :=
  (fetch_url_panics_on_non200_success 5 204 "x" (by norm_num) (by norm_num)
    (by norm_num)).1

/-- C3 counterexample: a recognized "Release date" row whose data cell has no
abbr element (and text "soon") does not yield MissingData — the detail
extractor succeeds, taking the cell's text verbatim. -/
theorem release_date_no_abbr_counterexample :
    (textCell ["soon"]).abbrTitle = none ∧
    ItchGameInfoParser.parse_itch_game_page_data c3doc =
      .ok { release_date := "soon" } :=
  ⟨rfl, rfl⟩

/-- C3 amended: in the feed-metadata parser, date rows (UpdatedDate and
PublishDate) locate a nested abbr element and parse its title attribute with
the format day, full month name, 4-digit year, "@", 24-hour time, "UTC";
absence of the abbr element or of its title yields MissingData, an unparsable
title yields InvalidData, and "05 March 2023 @ 14:30 UTC" parses to 5 March
2023, 14:30.  A ReleaseDate row in the detail extractor instead takes the
cell's trimmed text without any date parsing. -/
theorem date_field_extraction (dt : ItchParser.ItchTableData) (cell : Cell) :
    ((∀ t, cell.abbrTitle ≠ some (some t)) →
      ItchParser.parse_date_element cell dt = .error (.MissingData dt)) ∧
    (∀ t, cell.abbrTitle = some (some t) → parseDateTitle t = none →
      ItchParser.parse_date_element cell dt = .error (.InvalidData dt t)) ∧
    (∀ t d, cell.abbrTitle = some (some t) → parseDateTitle t = some d →
      ItchParser.parse_date_element cell dt = .ok d) ∧
    parseDateTitle "05 March 2023 @ 14:30 UTC" = some ⟨5, 3, 2023, 14, 30⟩ ∧
    (∀ d c, ItchGameInfoParser.rowUpdate d .ReleaseDate c =
      .ok { d with release_date := rustTrim (cellText c) }) := by
  refine ⟨?_, ?_, ?_, by decide, fun d c => rfl⟩
  · intro h
    rcases hc : cell.abbrTitle with _ | t2
    · simp [ItchParser.parse_date_element, hc]
    · rcases t2 with _ | t
      · simp [ItchParser.parse_date_element, hc]
      · exact absurd hc (h t)
  · intro t ht hp
    simp [ItchParser.parse_date_element, ht, hp]
  · intro t d ht hp
    simp [ItchParser.parse_date_element, ht, hp]

/-- C3 witness: the three outcomes at concrete cells — no abbr element gives
MissingData, a non-timestamp title gives InvalidData, a canonical title
parses. -/
theorem date_field_extraction_witness :
    ItchParser.parse_date_element (abbrCell none) .UpdatedDate =
      .error (.MissingData .UpdatedDate) ∧
    ItchParser.parse_date_element (abbrCell (some (some "yesterday"))) .PublishDate =
      .error (.InvalidData .PublishDate "yesterday") ∧
    ItchParser.parse_date_element (abbrCell (some (some "05 March 2023 @ 14:30 UTC")))
      .UpdatedDate = .ok ⟨5, 3, 2023, 14, 30⟩ := by
  refine ⟨?_, ?_, ?_⟩
  · exact (date_field_extraction .UpdatedDate (abbrCell none)).1
      (fun t => by simp [abbrCell])
  · exact (date_field_extraction .PublishDate _).2.1 "yesterday" rfl (by decide)
  · exact (date_field_extraction .UpdatedDate _).2.2.1 "05 March 2023 @ 14:30 UTC"
      ⟨5, 3, 2023, 14, 30⟩ rfl (by decide)

open ItchGameInfoParser in
/-- C4: Rating extraction reads the score from the content attribute of the
ratingValue element (floating point) and the count from the content attribute
of the ratingCount element (integer); either element or attribute missing
yields MissingData, either value unparsable yields InvalidData, any such
error aborts the whole page's extraction, and contents "4.5" and "120" yield
the rating with score 4.5 and count 120. -/
theorem rating_extraction (cell : Cell) :
    (cell.ratingValueContent = none ∨ cell.ratingValueContent = some none →
      parse_rating_element cell .Rating = .error (.MissingData .Rating)) ∧
    (∀ s, cell.ratingValueContent = some (some s) → parseF32 s = none →
      parse_rating_element cell .Rating = .error (.InvalidData .Rating s)) ∧
    (∀ s v, cell.ratingValueContent = some (some s) → parseF32 s = some v →
      (cell.ratingCountContent = none ∨ cell.ratingCountContent = some none →
        parse_rating_element cell .Rating = .error (.MissingData .Rating)) ∧
      (∀ c, cell.ratingCountContent = some (some c) → parseI32 c = none →
        parse_rating_element cell .Rating = .error (.InvalidData .Rating c)) ∧
      (∀ c n, cell.ratingCountContent = some (some c) → parseI32 c = some n →
        parse_rating_element cell .Rating = .ok ⟨v, n⟩)) ∧
    (∀ (lbl data : Cell) rest acc e,
      ItchTableData.fromLabel lbl.inner_html = some .Rating →
      parse_rating_element data .Rating = .error e →
      parseRows ([lbl, data] :: rest) acc = .error e) ∧
    parse_rating_element (ratingCell (some (some "4.5")) (some (some "120"))) .Rating =
      .ok ⟨(9 : Rat) / 2, 120⟩ := by
  refine ⟨?_, ?_, ?_, ?_, ?_⟩
  · rintro (hv | hv) <;> simp [parse_rating_element, hv]
  · intro s hv hp
    simp [parse_rating_element, hv, hp]
  · intro s v hv hp
    refine ⟨?_, ?_, ?_⟩
    · rintro (hc | hc) <;> simp [parse_rating_element, hv, hp, hc]
    · intro c hc hpc
      simp [parse_rating_element, hv, hp, hc, hpc]
    · intro c n hc hpc
      simp [parse_rating_element, hv, hp, hc, hpc]
  · intro lbl data rest acc e hl he
    simp [parseRows, hl, rowUpdate, he, Except.map]
  · have h1 : parse_rating_element (ratingCell (some (some "4.5")) (some (some "120")))
        .Rating = .ok ⟨(1 : Rat) * (((4 : Nat) : Rat) + ((5 : Nat) : Rat) /
          ((10 : Rat) ^ (1 : Nat))), (1 : Int) * ((120 : Nat) : Int)⟩ := rfl
    rw [h1]
    norm_num

/-- C4 witness: a Rating cell missing the ratingCount element fails with
MissingData, and a Rating row carrying that cell aborts the page parse with
it. -/
theorem rating_extraction_witness :
    ItchGameInfoParser.parseRows [[labelCell "Rating", ratingCell none none]] {} =
      .error (.MissingData .Rating) := by
  have h1 := (rating_extraction (ratingCell none none)).1 (Or.inl rfl)
  exact (rating_extraction (ratingCell none none)).2.2.2.1 (labelCell "Rating")
    (ratingCell none none) [] {} _ rfl h1

namespace ItchGameInfoParser

/-- A successful `rowUpdate` changes only the field selected by the label
kind, and sets it to the per-kind extracted value. -/
lemma rowUpdate_ok_frame (acc : MoreInfoTableData) (dt : ItchTableData) (td1 : Cell)
    (r : MoreInfoTableData) (hr : rowUpdate acc dt td1 = .ok r) :
    unchangedExcept dt acc r ∧ assignedField dt td1 r := by
  cases dt with
  | Rating =>
    simp only [rowUpdate] at hr
    cases hpe : parse_rating_element td1 .Rating with
    | error e => rw [hpe] at hr; simp [Except.map] at hr
    | ok v =>
      rw [hpe] at hr
      simp only [Except.map, Except.ok.injEq] at hr
      subst hr
      exact ⟨by simp [unchangedExcept], by simp [assignedField, hpe]⟩
  | Links =>
    simp only [rowUpdate] at hr
    cases hpe : parse_links td1.anchors with
    | error e => rw [hpe] at hr; simp [Except.map] at hr
    | ok v =>
      rw [hpe] at hr
      simp only [Except.map, Except.ok.injEq] at hr
      subst hr
      exact ⟨by simp [unchangedExcept], by simp [assignedField, hpe]⟩
  | ReleaseDate =>
    simp only [rowUpdate, Except.ok.injEq] at hr
    subst hr
    exact ⟨by simp [unchangedExcept], by simp [assignedField]⟩
  | Status =>
    simp only [rowUpdate, Except.ok.injEq] at hr
    subst hr
    exact ⟨by simp [unchangedExcept], by simp [assignedField]⟩
  | Platforms =>
    simp only [rowUpdate, Except.ok.injEq] at hr
    subst hr
    exact ⟨by simp [unchangedExcept], by simp [assignedField]⟩
  | Authors =>
    simp only [rowUpdate, Except.ok.injEq] at hr
    subst hr
    exact ⟨by simp [unchangedExcept], by simp [assignedField]⟩
  | Genres =>
    simp only [rowUpdate, Except.ok.injEq] at hr
    subst hr
    exact ⟨by simp [unchangedExcept], by simp [assignedField]⟩
  | MadeWith =>
    simp only [rowUpdate, Except.ok.injEq] at hr
    subst hr
    exact ⟨by simp [unchangedExcept], by simp [assignedField]⟩
  | Tags =>
    simp only [rowUpdate, Except.ok.injEq] at hr
    subst hr
    exact ⟨by simp [unchangedExcept], by simp [assignedField]⟩
  | AverageSession =>
    simp only [rowUpdate, Except.ok.injEq] at hr
    subst hr
    exact ⟨by simp [unchangedExcept], by simp [assignedField]⟩
  | Languages =>
    simp only [rowUpdate, Except.ok.injEq] at hr
    subst hr
    exact ⟨by simp [unchangedExcept], by simp [assignedField]⟩
  | Inputs =>
    simp only [rowUpdate, Except.ok.injEq] at hr
    subst hr
    exact ⟨by simp [unchangedExcept], by simp [assignedField]⟩
  | Accessibility =>
    simp only [rowUpdate, Except.ok.injEq] at hr
    subst hr
    exact ⟨by simp [unchangedExcept], by simp [assignedField]⟩

end ItchGameInfoParser

open ItchGameInfoParser in
/-- C5: a two-cell row whose label matches a recognized entry assigns exactly
the one field corresponding to that label and leaves every other field
unchanged; a two-cell row with an unrecognized label is skipped without error
and alters no field at all. -/
theorem row_dispatch_frame :
    (∀ acc (td0 td1 : Cell) dt r rest,
      ItchTableData.fromLabel td0.inner_html = some dt →
      rowUpdate acc dt td1 = .ok r →
      parseRows ([td0, td1] :: rest) acc = parseRows rest r ∧
      (unchangedExcept dt acc r ∧ assignedField dt td1 r)) ∧
    (∀ acc (td0 td1 : Cell) rest,
      ItchTableData.fromLabel td0.inner_html = none →
      parseRows ([td0, td1] :: rest) acc = parseRows rest acc) := by
  constructor
  · intro acc td0 td1 dt r rest hl hr
    exact ⟨by simp [parseRows, hl, hr], rowUpdate_ok_frame acc dt td1 r hr⟩
  · intro acc td0 td1 rest hl
    simp [parseRows, hl]

open ItchGameInfoParser in
/-- C5 witness: a "Status" row sets exactly the status field; a row with the
unrecognized label "Bogus" is skipped and alters nothing. -/
theorem row_dispatch_frame_witness :
    (parseRows [[labelCell "Status", textCell ["Released"]]] {} =
        parseRows [] ({ status := "Released" } : MoreInfoTableData) ∧
      (unchangedExcept .Status {} { status := "Released" } ∧
        assignedField .Status (textCell ["Released"]) { status := "Released" })) ∧
    parseRows [[labelCell "Bogus", textCell ["x"]]] {} = parseRows [] {} :=
  ⟨row_dispatch_frame.1 {} (labelCell "Status") (textCell ["Released"]) .Status
      { status := "Released" } [] rfl rfl,
    row_dispatch_frame.2 {} (labelCell "Bogus") (textCell ["x"]) [] rfl⟩

namespace ItchGameInfoParser

/-- One unfolding of the row loop at a two-cell row. -/
lemma parseRows_cons_two (td0 td1 : Cell) (rest : HtmlDoc) (acc : MoreInfoTableData) :
    parseRows ([td0, td1] :: rest) acc =
      match ItchTableData.fromLabel td0.inner_html with
      | none => parseRows rest acc
      | some dt =>
        match rowUpdate acc dt td1 with
        | .ok acc2 => parseRows rest acc2
        | .error e => .error e := rfl

/-- A row whose `td` count is not two aborts the loop with MissingElements. -/
lemma parseRows_not_two (bad : HtmlRow) (rest : HtmlDoc) (acc : MoreInfoTableData)
    (h : bad.length ≠ 2) :
    parseRows (bad :: rest) acc = .error .MissingElements := by
  match bad with
  | [] => rfl
  | [a] => rfl
  | [a, b] => exact absurd rfl h
  | a :: b :: c :: t => rfl

/-- The row loop runs the prefix first: when the prefix processes cleanly the
loop continues on the rest from the updated accumulator. -/
lemma parseRows_append_ok (pre rest : HtmlDoc) (acc acc2 : MoreInfoTableData)
    (h : parseRows pre acc = .ok acc2) :
    parseRows (pre ++ rest) acc = parseRows rest acc2 := by
  induction pre generalizing acc with
  | nil =>
    simp only [parseRows, Except.ok.injEq] at h
    subst h
    simp
  | cons tr pre ih =>
    by_cases h2 : tr.length = 2
    · match tr, h2 with
      | [td0, td1], _ =>
        rw [List.cons_append, parseRows_cons_two]
        rw [parseRows_cons_two] at h
        cases hl : ItchTableData.fromLabel td0.inner_html with
        | none =>
          rw [hl] at h
          exact ih acc h
        | some dt =>
          rw [hl] at h
          cases hu : rowUpdate acc dt td1 with
          | ok acc3 =>
            simp only [hu] at h ⊢
            exact ih acc3 h
          | error e =>
            simp only [hu] at h
            exact absurd h (by simp)
    · rw [parseRows_not_two tr pre acc h2] at h
      exact absurd h (by simp)

/-- If any row of the document has a `td` count other than two, the row loop
returns some error. -/
lemma parseRows_error_of_bad_row :
    ∀ (doc : HtmlDoc) (acc : MoreInfoTableData), (∃ tr ∈ doc, tr.length ≠ 2) →
      ∃ e, parseRows doc acc = .error e := by
  intro doc
  induction doc with
  | nil =>
    intro acc h
    simp at h
  | cons tr rest ih =>
    intro acc h
    by_cases h2 : tr.length = 2
    · match tr, h2 with
      | [td0, td1], _ =>
        have hbad : ∃ tr2 ∈ rest, tr2.length ≠ 2 := by
          rcases h with ⟨tr2, htr2, hlen⟩
          rcases List.mem_cons.mp htr2 with rfl | hmem
          · exact absurd rfl hlen
          · exact ⟨tr2, hmem, hlen⟩
        rw [parseRows_cons_two]
        cases hl : ItchTableData.fromLabel td0.inner_html with
        | none => exact ih acc hbad
        | some dt =>
          cases hu : rowUpdate acc dt td1 with
          | ok acc3 =>
            simp only [hu]
            exact ih acc3 hbad
          | error e =>
            simp only [hu]
            exact ⟨e, rfl⟩
    · exact ⟨.MissingElements, parseRows_not_two tr rest acc h2⟩

end ItchGameInfoParser

open ItchGameInfoParser in
/-- C6 counterexample: in a document whose second row has three `td` cells
but whose first row is a Rating row lacking the ratingValue element, the
extraction fails with MissingData, not MissingElements — the first failing
row decides the error. -/
theorem bad_cell_count_counterexample :
    (∃ tr ∈ c6doc, tr.length ≠ 2) ∧
    parse_itch_game_page_data c6doc ≠ .error .MissingElements ∧
    parse_itch_game_page_data c6doc = .error (.MissingData .Rating) := by
  refine ⟨⟨[labelCell "a", labelCell "b", labelCell "c"], by simp [c6doc], by simp⟩,
    ?_, rfl⟩
  rw [show parse_itch_game_page_data c6doc = .error (.MissingData .Rating) from rfl]
  simp

open ItchGameInfoParser in
/-- C6 amended: if any selected table row has a `td` count other than exactly
two, the page's extraction fails (no DetailRecord is returned); and when the
rows before the offending row all process without error, the failure is
MissingElements. -/
theorem bad_cell_count_aborts (doc : HtmlDoc)
    (h : ∃ tr ∈ doc, tr.length ≠ 2) :
    (∃ e, parse_itch_game_page_data doc = .error e) ∧
    (∀ pre bad rest acc2, doc = pre ++ bad :: rest →
      parseRows pre {} = .ok acc2 → bad.length ≠ 2 →
      parse_itch_game_page_data doc = .error .MissingElements) := by
  constructor
  · exact parseRows_error_of_bad_row doc {} h
  · intro pre bad rest acc2 hdoc hpre hlen
    subst hdoc
    rw [parse_itch_game_page_data, parseRows_append_ok pre (bad :: rest) {} acc2 hpre,
      parseRows_not_two bad rest acc2 hlen]

open ItchGameInfoParser in
/-- C6 witness: a document whose only row has three `td` cells fails with
MissingElements. -/
theorem bad_cell_count_aborts_witness :
    parse_itch_game_page_data [[labelCell "a", labelCell "b", labelCell "c"]] =
      .error .MissingElements :=
  (bad_cell_count_aborts [[labelCell "a", labelCell "b", labelCell "c"]]
    ⟨[labelCell "a", labelCell "b", labelCell "c"], by simp, by simp⟩).2
    [] [labelCell "a", labelCell "b", labelCell "c"] [] {} rfl rfl (by simp)

/-- A string has positive length exactly when it is not the empty string. -/
lemma string_length_pos (s : String) : 0 < s.length ↔ s ≠ "" := by
  cases s with
  | mk d =>
    simp [String.length, String.ext_iff]
    cases d <;> simp

/-- The code's Bool filter condition agrees pointwise with the spec's
"drop empty strings and standalone comma tokens". -/
lemma filter_cond_eq (s : String) :
    (s != "," && decide (0 < s.length)) = decide (¬(s = "" ∨ s = ",")) := by
  by_cases h1 : s = ","
  · subst h1
    simp
  · by_cases h2 : s = ""
    · subst h2
      simp
    · simp [h1, h2, string_length_pos]

open ItchGameInfoParser in
/-- C7: for every list-field data cell, the extracted list equals the cell's
text nodes split on newlines, each piece trimmed, with empty strings and
standalone "," tokens dropped (the spec-worded `specListField`); and it is a
sublist of the trimmed pieces, so relative order is preserved and nothing is
deduplicated. -/
theorem list_field_extraction (cell : Cell) :
    parse_anchor_separated_strings cell = specListField cell.textNodes ∧
    List.Sublist (parse_anchor_separated_strings cell)
      ((cell.textNodes.flatMap rustSplitNewline).map rustTrim) := by
  have hbase : (cell.textNodes.map rustSplitNewline).flatten =
      cell.textNodes.flatMap rustSplitNewline := by
    simp [List.flatMap]
  constructor
  · rw [parse_anchor_separated_strings, specListField, hbase]
    exact List.filter_congr (fun s _ => filter_cond_eq s)
  · rw [parse_anchor_separated_strings, hbase]
    exact List.filter_sublist _

open ItchGameInfoParser in
/-- C10 counterexample: a page whose first row has three `td` cells and whose
second row is a recognized Links row with an href-less anchor fails with
MissingElements, not with MissingData for Links — the first failing row
decides the error. -/
theorem links_missing_href_counterexample :
    (∃ a ∈ (anchorsCell [⟨none, "home"⟩]).anchors, a.href = none) ∧
    ItchTableData.fromLabel (labelCell "Links").inner_html = some .Links ∧
    c10doc = [[labelCell "a", labelCell "b", labelCell "c"],
      [labelCell "Links", anchorsCell [⟨none, "home"⟩]]] ∧
    parse_itch_game_page_data c10doc = .error .MissingElements ∧
    parse_itch_game_page_data c10doc ≠ .error (.MissingData .Links) := by
  refine ⟨⟨⟨none, "home"⟩, by simp [anchorsCell], rfl⟩, rfl, rfl, rfl, ?_⟩
  rw [show parse_itch_game_page_data c10doc = .error .MissingElements from rfl]
  simp

open ItchGameInfoParser in
/-- C10 amended: an anchor without an href attribute inside a recognized
Links row makes `parse_links` fail with MissingData for Links, and when the
rows before the Links row all process without error this failure aborts the
whole page's extraction with that error, so the item is skipped. -/
theorem links_missing_href_aborts :
    (∀ anchors, (∃ a ∈ anchors, a.href = none) →
      parse_links anchors = .error (.MissingData .Links)) ∧
    (∀ pre rest acc2 (lbl data : Cell),
      parseRows pre {} = .ok acc2 →
      ItchTableData.fromLabel lbl.inner_html = some .Links →
      (∃ a ∈ data.anchors, a.href = none) →
      parse_itch_game_page_data (pre ++ [lbl, data] :: rest) =
        .error (.MissingData .Links)) := by
  have hpl : ∀ anchors, (∃ a ∈ anchors, a.href = none) →
      parse_links anchors = .error (.MissingData .Links) := by
    intro anchors
    induction anchors with
    | nil =>
      intro h
      simp at h
    | cons a rest ih =>
      intro h
      cases ha : a.href with
      | none => simp [parse_links, ha]
      | some href =>
        have hrest : ∃ b ∈ rest, b.href = none := by
          rcases h with ⟨b, hb, hbn⟩
          rcases List.mem_cons.mp hb with rfl | hb2
          · rw [ha] at hbn
            exact absurd hbn (by simp)
          · exact ⟨b, hb2, hbn⟩
        simp [parse_links, ha, ih hrest, Except.map]
  refine ⟨hpl, ?_⟩
  intro pre rest acc2 lbl data hpre hl hx
  rw [parse_itch_game_page_data, parseRows_append_ok pre _ {} acc2 hpre,
    parseRows_cons_two, hl]
  simp [rowUpdate, hpl data.anchors hx, Except.map]

open ItchGameInfoParser in
/-- C10 witness: a page whose only row is a Links row with an href-less
anchor fails with MissingData for Links. -/
theorem links_missing_href_aborts_witness :
    parse_itch_game_page_data [[labelCell "Links", anchorsCell [⟨none, "home"⟩]]] =
      .error (.MissingData .Links) :=
  links_missing_href_aborts.2 [] [] {} (labelCell "Links")
    (anchorsCell [⟨none, "home"⟩]) rfl rfl
    ⟨⟨none, "home"⟩, by simp [anchorsCell], rfl⟩

namespace ItchRssScraper

open ItchGameInfoParser

/-- Membership in the item loop's result: a record is in the output exactly
when it was already accumulated or some item of this page fetched a document
that parses, combining to the record. -/
lemma processItems_mem (rec : ItchData) :
    ∀ (items : List ItemInput) (acc out : List ItchData),
      processItems items acc = some out →
      (rec ∈ out ↔ rec ∈ acc ∨ ∃ item doc data,
        (item, Fetched.ok doc) ∈ items ∧
        parse_itch_game_page_data doc = .ok data ∧
        rec = combine_itch_rss_and_info_data data item) := by
  intro items
  induction items with
  | nil =>
    intro acc out h
    simp only [processItems, Option.some.injEq] at h
    subst h
    simp
  | cons hd rest ih =>
    intro acc out h
    obtain ⟨item, fd⟩ := hd
    cases fd with
    | fail => simp [processItems] at h
    | ok doc =>
      cases hp : parse_itch_game_page_data doc with
      | ok data =>
        simp only [processItems, hp] at h
        rw [ih (acc ++ [combine_itch_rss_and_info_data data item]) out h]
        constructor
        · rintro (hacc | ⟨i, d, dt, hm, hpd, hre⟩)
          · rcases List.mem_append.mp hacc with h1 | h1
            · exact Or.inl h1
            · right
              refine ⟨item, doc, data, List.mem_cons_self _ _, hp, ?_⟩
              simpa using h1
          · exact Or.inr ⟨i, d, dt, List.mem_cons_of_mem _ hm, hpd, hre⟩
        · rintro (hacc | ⟨i, d, dt, hm, hpd, hre⟩)
          · exact Or.inl (List.mem_append.mpr (Or.inl hacc))
          · rcases List.mem_cons.mp hm with heq | hm2
            · simp only [Prod.mk.injEq, Fetched.ok.injEq] at heq
              obtain ⟨rfl, rfl⟩ := heq
              rw [hp] at hpd
              injection hpd with hdd
              subst hdd
              subst hre
              exact Or.inl (List.mem_append.mpr (Or.inr (by simp)))
            · exact Or.inr ⟨i, d, dt, hm2, hpd, hre⟩
      | error e =>
        simp only [processItems, hp] at h
        rw [ih acc out h]
        constructor
        · rintro (hacc | ⟨i, d, dt, hm, hpd, hre⟩)
          · exact Or.inl hacc
          · exact Or.inr ⟨i, d, dt, List.mem_cons_of_mem _ hm, hpd, hre⟩
        · rintro (hacc | ⟨i, d, dt, hm, hpd, hre⟩)
          · exact Or.inl hacc
          · rcases List.mem_cons.mp hm with heq | hm2
            · simp only [Prod.mk.injEq, Fetched.ok.injEq] at heq
              obtain ⟨rfl, rfl⟩ := heq
              rw [hp] at hpd
              exact absurd hpd (by simp)
            · exact Or.inr ⟨i, d, dt, hm2, hpd, hre⟩

/-- Membership in the page loop's result: a record is in the output exactly
when it was already accumulated or some decoded page contains an item whose
fetched document parses, combining to the record. -/
lemma crawlPages_mem (rec : ItchData) :
    ∀ (pages : List PageInput) (acc out : List ItchData),
      crawlPages pages acc = some out →
      (rec ∈ out ↔ rec ∈ acc ∨ ∃ items, Fetched.ok (some items) ∈ pages ∧
        ∃ item doc data, (item, Fetched.ok doc) ∈ items ∧
        parse_itch_game_page_data doc = .ok data ∧
        rec = combine_itch_rss_and_info_data data item) := by
  intro pages
  induction pages with
  | nil =>
    intro acc out h
    simp only [crawlPages, Option.some.injEq] at h
    subst h
    simp
  | cons pg rest ih =>
    intro acc out h
    cases pg with
    | fail => simp [crawlPages] at h
    | ok od =>
      cases od with
      | none =>
        simp only [crawlPages] at h
        rw [ih acc out h]
        constructor
        · rintro (h1 | ⟨its, hm, hrest⟩)
          · exact Or.inl h1
          · exact Or.inr ⟨its, List.mem_cons_of_mem _ hm, hrest⟩
        · rintro (h1 | ⟨its, hm, hrest⟩)
          · exact Or.inl h1
          · rcases List.mem_cons.mp hm with heq | hm2
            · simp at heq
            · exact Or.inr ⟨its, hm2, hrest⟩
      | some items =>
        cases hpi : processItems items acc with
        | none => simp [crawlPages, hpi] at h
        | some acc2 =>
          simp only [crawlPages, hpi] at h
          rw [ih acc2 out h, processItems_mem rec items acc acc2 hpi]
          constructor
          · rintro ((ha | ⟨i, d, dt, hm, hpd, hre⟩) | ⟨its, hm, hrest⟩)
            · exact Or.inl ha
            · exact Or.inr ⟨items, List.mem_cons_self _ _, i, d, dt, hm, hpd, hre⟩
            · exact Or.inr ⟨its, List.mem_cons_of_mem _ hm, hrest⟩
          · rintro (ha | ⟨its, hm, hrest⟩)
            · exact Or.inl (Or.inl ha)
            · rcases List.mem_cons.mp hm with heq | hm2
              · simp only [Fetched.ok.injEq, Option.some.injEq] at heq
                subst heq
                exact Or.inl (Or.inr hrest)
              · exact Or.inr ⟨its, hm2, hrest⟩

end ItchRssScraper

/-- C2: for every crawl that completes, a record appears in the output
collection if and only if both the feed decode of its page succeeded and the
detail-page extraction of its item succeeded; an item whose extraction fails
is skipped and no partial record for it is ever emitted — every output record
is the total combination of a feed item with a successfully parsed detail
record. -/
theorem crawl_record_iff (pages : List ItchRssScraper.PageInput)
    (out : List ItchRssScraper.ItchData)
    (h : ItchRssScraper.scrape_itch_rss_feed pages = some out)
    (rec : ItchRssScraper.ItchData) :
    rec ∈ out ↔ ∃ items, ItchRssScraper.Fetched.ok (some items) ∈ pages ∧
      ∃ item doc data, (item, ItchRssScraper.Fetched.ok doc) ∈ items ∧
      ItchGameInfoParser.parse_itch_game_page_data doc = .ok data ∧
      rec = ItchRssScraper.combine_itch_rss_and_info_data data item := by
  have hx := ItchRssScraper.crawlPages_mem rec pages [] out h
  simpa using hx

/-- C2 witness: in a crawl over one decoded page (one parsable item and one
unparsable item) and one page whose decode failed, the combined record of the
parsable item is in the output. -/
theorem crawl_record_iff_witness :
    ItchRssScraper.recW ∈ [ItchRssScraper.recW] := by
  have h : ItchRssScraper.scrape_itch_rss_feed ItchRssScraper.pagesW =
      some [ItchRssScraper.recW] := rfl
  exact (crawl_record_iff ItchRssScraper.pagesW [ItchRssScraper.recW] h
    ItchRssScraper.recW).2
    ⟨[(ItchRssScraper.itemW, .ok ItchRssScraper.docGoodW),
      (ItchRssScraper.itemW, .ok ItchRssScraper.docBadW)],
      by simp [ItchRssScraper.pagesW],
      ItchRssScraper.itemW, ItchRssScraper.docGoodW, { status := "Released" },
      by simp, rfl, rfl⟩
